import Mathlib

/-!
Verification of the cristalhq/oauth2 client library (shallow embedding).

The repository snapshot contains several revisions of the same package
concatenated: `client.go` holds an early revision of the Client, while
`src/unnamed/part_000` holds two later revisions (called V2 and V3 below)
plus their tests.  `token.go` additionally carries a copy of the
golang.org/x/oauth2 internal retrieval code (`RetrieveToken`,
`doTokenRoundTrip`).  All variants are embedded where they differ.

Modelling conventions:
* Go strings are Lean `String`s; byte-level operations (UTF-8 escaping)
  are computed from code points.
* `time.Time` is `Option Int`: `none` is the zero timestamp, `some t` is
  `t` nanoseconds on an absolute clock.  `Round(0)` only strips the
  monotonic reading in Go and is the identity on wall-clock values.
* `float64` results of `strconv.ParseFloat` are modelled as the exact
  decimal rational the string denotes (binary rounding is not modelled;
  every concrete value appearing in the claims round-trips exactly).
* `url.Values` (a Go map from string to string slice) is an association
  list without duplicate keys; `Encode` sorts by key exactly as Go does.
* The HTTP transport is an oracle (`Env.send`); `http.NewRequest`
  failure for a malformed token URL is the oracle field `Env.urlError`.
-/

/-- Enum Mode from `src/unnamed/part_001` (same numbering as `AuthStyle` in
`config.go`): AutoDetect = 0, InParams = 1, InHeader = 2. -/
inductive Mode where
  | AutoDetectMode
  | InParamsMode
  | InHeaderMode
deriving DecidableEq, Repr

/-- Struct Config from `src/unnamed/part_001`. -/
structure Config where
  ClientID : String := ""
  ClientSecret : String := ""
  AuthURL : String := ""
  TokenURL : String := ""
  Mode : Mode := .AutoDetectMode
  RedirectURL : String := ""
  Scopes : List String := []
deriving DecidableEq, Repr

/-- Type of `url.Values`: map from key to list of values, as an association list
with no duplicate keys (Go maps are unordered; `Encode` sorts by key). -/
def Values := List (String × List String)
deriving DecidableEq, Repr

/-- Go map read `v[key]`: the value slice bound to `key`, if present. -/
def Values.lookupKey : Values → String → Option (List String)
  | [], _ => none
  | (k, vs) :: rest, key => if k = key then some vs else Values.lookupKey rest key

/-- Method `url.Values.Get`: first value for the key, or the empty string. -/
def Values.get (v : Values) (key : String) : String :=
  match v.lookupKey key with
  | some (x :: _) => x
  | some [] => ""
  | none => ""

/-- Method `url.Values.Set`: replace the value slice of `key` with the single value. -/
def Values.set : Values → String → String → Values
  | [], key, val => [(key, [val])]
  | (k, vs) :: rest, key, val =>
      if k = key then (k, [val]) :: rest else (k, vs) :: Values.set rest key val

/-- Method `url.Values.Add`: append the value to the slice bound to `key`. -/
def Values.add : Values → String → String → Values
  | [], key, val => [(key, [val])]
  | (k, vs) :: rest, key, val =>
      if k = key then (k, vs ++ [val]) :: rest else (k, vs) :: Values.add rest key val

/-- Function `cloneURLValues` from `utils.go`: in a pure value model copying is the
identity (the nil map also becomes the empty map). -/
def cloneURLValues (vals : Values) : Values := vals

/-- Decimal digit test, as in `strconv`. -/
def isDigitChar (c : Char) : Bool := '0' ≤ c ∧ c ≤ '9'

/-- Numeric value of a list of decimal digit characters. -/
def digitsToNat : List Char → Nat → Nat
  | [], acc => acc
  | c :: cs, acc => digitsToNat cs (acc * 10 + (c.toNat - 48))

/-- Splits a string into (sign, digit characters, rest) for integer parsing. -/
def splitSignDigits (s : String) : Bool × List Char × List Char :=
  match s.data with
  | '-' :: cs => (true, cs.takeWhile isDigitChar, cs.dropWhile isDigitChar)
  | '+' :: cs => (false, cs.takeWhile isDigitChar, cs.dropWhile isDigitChar)
  | cs => (false, cs.takeWhile isDigitChar, cs.dropWhile isDigitChar)

/-- Model of `strconv.ParseInt(s, 10, 64)`: optional sign followed by at least one
decimal digit, nothing else, value within the signed 64-bit range;
`none` models a non-nil error. -/
def parseInt64 (s : String) : Option Int :=
  let (neg, digits, rest) := splitSignDigits s
  if digits = [] ∨ rest ≠ [] then none
  else
    let n : Int := digitsToNat digits 0
    let v : Int := if neg then -n else n
    if v < -(2 ^ 63) ∨ v > 2 ^ 63 - 1 then none else some v

/-- Model of `strconv.Atoi` with the error discarded, as in `parseText`: Go returns
0 on a syntax error and the clamped boundary value on a range error. -/
def atoiIgnoringError (s : String) : Int :=
  let (neg, digits, rest) := splitSignDigits s
  if digits = [] ∨ rest ≠ [] then 0
  else
    let n : Int := digitsToNat digits 0
    let v : Int := if neg then -n else n
    if v < -(2 ^ 63) then -(2 ^ 63)
    else if v > 2 ^ 63 - 1 then 2 ^ 63 - 1
    else v

/-- Model of `strconv.ParseFloat(s, 64)` on decimal syntax, modelled exactly as a
rational: optional sign, digits with an optional fractional part (at
least one digit overall), optional decimal exponent.  The special forms
inf/NaN/hex contain no "." and are unreachable from `Token.Extra`. -/
def parseFloatRat (s : String) : Option Rat :=
  let (cs, neg) := match s.data with
    | '-' :: rest => (rest, true)
    | '+' :: rest => (rest, false)
    | rest => (rest, false)
  let intDigits := cs.takeWhile isDigitChar
  let afterInt := cs.dropWhile isDigitChar
  let (fracDigits, afterFrac) := match afterInt with
    | '.' :: rest => (rest.takeWhile isDigitChar, rest.dropWhile isDigitChar)
    | _ => ([], afterInt)
  if intDigits = [] ∧ fracDigits = [] then none
  else
    let mant : Nat := digitsToNat (intDigits ++ fracDigits) 0
    match afterFrac with
    | [] =>
      let q : Rat := (mant : Rat) / ((10 : Rat) ^ fracDigits.length)
      some (if neg then -q else q)
    | e :: rest =>
      if e = 'e' ∨ e = 'E' then
        let (expNeg, expDigits, expRest) := match rest with
          | '-' :: r => (true, r.takeWhile isDigitChar, r.dropWhile isDigitChar)
          | '+' :: r => (false, r.takeWhile isDigitChar, r.dropWhile isDigitChar)
          | r => (false, r.takeWhile isDigitChar, r.dropWhile isDigitChar)
        if expDigits = [] ∨ expRest ≠ [] then none
        else
          let ex : Nat := digitsToNat expDigits 0
          let q : Rat :=
            if expNeg then (mant : Rat) / ((10 : Rat) ^ (fracDigits.length + ex))
            else ((mant : Rat) * (10 : Rat) ^ ex) / ((10 : Rat) ^ fracDigits.length)
          some (if neg then -q else q)
      else none

/-- Characters treated as white space by `strings.TrimSpace` (the ASCII
space class plus NEL and NBSP, per Unicode White_Space for Latin-1). -/
def isSpaceChar (c : Char) : Bool :=
  c = ' ' ∨ c = '\t' ∨ c = '\n' ∨ (11 ≤ c.toNat ∧ c.toNat ≤ 13) ∨
    c.toNat = 0x85 ∨ c.toNat = 0xA0

/-- Model of `strings.TrimSpace`. -/
def trimSpace (s : String) : String :=
  ⟨((s.data.dropWhile isSpaceChar).reverse.dropWhile isSpaceChar).reverse⟩

/-- Model of `strings.Count(s, ".")`: the number of dots in the string. -/
def countDots (s : String) : Nat := (s.data.filter (· = '.')).length

/-- JSON values; number literals keep their source text because
`json.Number` is a string and `Int64()` re-parses the literal. -/
inductive JSONValue where
  | null
  | bool (b : Bool)
  | num (lit : String)
  | str (s : String)
  | arr (elems : List JSONValue)
  | obj (members : List (String × JSONValue))
deriving Repr

/-- The dynamic type of `Token.Raw` (`interface\x7b\x7d` in Go): a
string-keyed map produced by JSON decoding, a `url.Values` from a
form-encoded response, or nil. -/
inductive RawData where
  | jsonMap (m : List (String × JSONValue))
  | formValues (v : Values)
  | nil
deriving Repr

/-- Go map read on a string-keyed map: first binding of the key. -/
def mapGet : List (String × JSONValue) → String → Option JSONValue
  | [], _ => none
  | (k, v) :: rest, key => if k = key then some v else mapGet rest key

/-- Struct Token from `token.go`: `Expiry` is `none` for the zero timestamp,
otherwise nanoseconds on the wall clock. -/
structure Token where
  AccessToken : String := ""
  TokenType : String := ""
  RefreshToken : String := ""
  Expiry : Option Int := none
  Raw : RawData := .nil
deriving Repr

/-- Result type of `Token.Extra` (an `interface\x7b\x7d` in Go). -/
inductive ExtraValue where
  | int64 (i : Int)
  | float64 (q : Rat)
  | str (s : String)
  | jsonVal (v : JSONValue)
  | nil
deriving Repr

/-- Method `Token.Extra` from `token.go` lines 353-381. -/
def Token.Extra (t : Token) (key : String) : ExtraValue :=
  match t.Raw with
  | .jsonMap m =>
    match mapGet m key with
    | some v => .jsonVal v
    | none => .nil
  | .formValues v =>
    let value := v.get key
    let s := trimSpace value
    match countDots s with
    | 0 =>
      match parseInt64 s with
      | some i => .int64 i
      | none => .str value
    | 1 =>
      match parseFloatRat s with
      | some f => .float64 f
      | none => .str value
    | _ => .str value
  | .nil => .nil

/-- Constant expiryDelta from `token.go`: 10 seconds, in nanoseconds. -/
def expiryDelta : Int := 10 * 1000000000

/-- Method `Token.IsExpired` from `token.go` lines 399-404; `now` is the value
of `timeNow()` in nanoseconds.  `Round(0)` strips only the monotonic
clock reading and is the identity on the wall-clock value. -/
def Token.IsExpired (t : Token) (now : Int) : Bool :=
  match t.Expiry with
  | none => false
  | some e => e - expiryDelta < now

/-- Method `Token.Valid` from `token.go` (the receiver is known non-nil in the
value model). -/
def Token.Valid (t : Token) (now : Int) : Bool :=
  t.AccessToken ≠ "" ∧ ¬ t.IsExpired now

/-- Claim C5: for every Token, IsExpired returns false when Expiry is the
zero timestamp regardless of the current time; otherwise IsExpired is
true iff Expiry minus the 10-second grace margin is strictly before the
current time, so Expiry = now + 10s is not expired, Expiry = now + 10s
minus 1ns is expired, and Expiry = now - 1h is expired. -/
theorem claim_C5 (t : Token) (now e : Int) :
    (t.Expiry = none → t.IsExpired now = false)
  ∧ (t.Expiry = some e → (t.IsExpired now = true ↔ e - expiryDelta < now))
  ∧ Token.IsExpired { Expiry := some (now + 10 * 1000000000) } now = false
  ∧ Token.IsExpired { Expiry := some (now + 10 * 1000000000 - 1) } now = true
  ∧ Token.IsExpired { Expiry := some (now - 3600 * 1000000000) } now = true := by
  refine ⟨fun h => ?_, fun h => ?_, ?_, ?_, ?_⟩ <;>
    simp [Token.IsExpired, expiryDelta, *] <;> omega

/-- Witness for C5 at a concrete token and clock. -/
theorem claim_C5_witness :
    Token.IsExpired { Expiry := none } 12345 = false :=
  (claim_C5 { Expiry := none } 12345 0).1 rfl

/-- Claim C8: Extra is a direct lookup when Raw is a string-keyed map;
on a form-parameter set it trims the looked-up string, returns its
signed 64-bit integer parse at zero dots, its float parse at exactly one
dot, and otherwise the original untrimmed value; on any other Raw shape
it returns nil.  The form value "86400.92" yields the float 86400.92 and
"86400" yields the 64-bit integer 86400. -/
theorem claim_C8 (m : List (String × JSONValue)) (v : Values) (key : String) (t : Token) :
    (t.Raw = .jsonMap m →
      t.Extra key = (match mapGet m key with
        | some x => .jsonVal x
        | none => .nil))
  ∧ (t.Raw = .formValues v →
      t.Extra key =
        (let value := v.get key
         let s := trimSpace value
         if countDots s = 0 then
           (match parseInt64 s with | some i => .int64 i | none => .str value)
         else if countDots s = 1 then
           (match parseFloatRat s with | some f => .float64 f | none => .str value)
         else .str value))
  ∧ (t.Raw = .nil → t.Extra key = .nil)
  ∧ Token.Extra { Raw := .formValues [("expires_in", ["86400.92"])] } "expires_in"
      = .float64 (8640092 / 100)
  ∧ Token.Extra { Raw := .formValues [("request_id", ["86400"])] } "request_id"
      = .int64 86400
  ∧ Token.Extra { Raw := .formValues [("referer_ip", ["10.0.0.1"])] } "referer_ip"
      = .str "10.0.0.1"
  ∧ Token.Extra { Raw := .formValues [("untrimmed", ["  untrimmed  "])] } "untrimmed"
      = .str "  untrimmed  " := by
  refine ⟨fun h => ?_, fun h => ?_, fun h => ?_, by rfl, by rfl, by rfl, by rfl⟩
  · simp [Token.Extra, h]
  · simp only [Token.Extra, h]
    rcases hn : countDots (trimSpace (v.get key)) with _ | _ | k <;> simp [hn]
  · simp [Token.Extra, h]

/-- Witness for C8 at a concrete token. -/
theorem claim_C8_witness :
    Token.Extra { Raw := RawData.nil } "k" = .nil :=
  (claim_C8 [] [] "k" { Raw := .nil }).2.2.1 rfl

/-- UTF-8 bytes of a character, as natural numbers. -/
def utf8Bytes (c : Char) : List Nat :=
  let n := c.toNat
  if n < 0x80 then [n]
  else if n < 0x800 then [0xC0 + n / 64, 0x80 + n % 64]
  else if n < 0x10000 then
    [0xE0 + n / 4096, 0x80 + n / 64 % 64, 0x80 + n % 64]
  else
    [0xF0 + n / 262144, 0x80 + n / 4096 % 64, 0x80 + n / 64 % 64, 0x80 + n % 64]

/-- Upper-case hexadecimal digit, as used by `url.QueryEscape`. -/
def hexDigitUpper (n : Nat) : Char :=
  if n < 10 then Char.ofNat (48 + n) else Char.ofNat (55 + n)

/-- Bytes left unescaped by `url.QueryEscape`: alphanumerics and -_.~ . -/
def isUnreservedByte (b : Nat) : Bool :=
  (65 ≤ b ∧ b ≤ 90) ∨ (97 ≤ b ∧ b ≤ 122) ∨ (48 ≤ b ∧ b ≤ 57) ∨
    b = 45 ∨ b = 46 ∨ b = 95 ∨ b = 126

/-- Model of `url.QueryEscape`: keep unreserved bytes, turn space into a
plus sign, percent-encode every other byte in upper-case hex. -/
def queryEscape (s : String) : String :=
  ⟨(s.data.flatMap utf8Bytes).flatMap fun b =>
    if isUnreservedByte b then [Char.ofNat b]
    else if b = 32 then ['+']
    else ['%', hexDigitUpper (b / 16), hexDigitUpper (b % 16)]⟩

/-- Hexadecimal digit value, for percent-decoding. -/
def hexVal (c : Char) : Option Nat :=
  if '0' ≤ c ∧ c ≤ '9' then some (c.toNat - 48)
  else if 'a' ≤ c ∧ c ≤ 'f' then some (c.toNat - 87)
  else if 'A' ≤ c ∧ c ≤ 'F' then some (c.toNat - 55)
  else none

/-- Model of `url.QueryUnescape`: plus becomes space, percent escapes are
decoded, a malformed percent escape is an error (`none`).  Decoded bytes
are kept as code points (multi-byte UTF-8 reassembly is not modelled;
every input in the claims is ASCII). -/
def queryUnescapeChars : List Char → Option (List Char)
  | [] => some []
  | '%' :: a :: b :: rest =>
    match hexVal a, hexVal b with
    | some ha, some hb =>
      match queryUnescapeChars rest with
      | some cs => some (Char.ofNat (ha * 16 + hb) :: cs)
      | none => none
    | _, _ => none
  | '%' :: _ => none
  | '+' :: rest =>
    match queryUnescapeChars rest with
    | some cs => some (' ' :: cs)
    | none => none
  | c :: rest =>
    match queryUnescapeChars rest with
    | some cs => some (c :: cs)
    | none => none

/-- Errors; each constructor records one Go error site. -/
inductive Err where
  /-- Status outside 200..299 in `parseResponse` (`utils.go` line 36):
  oauth2: cannot fetch token, with status code, status text and body. -/
  | fetchFailed (status : Nat) (statusText : String) (body : String)
  /-- Error "oauth2: server response missing access_token" (`utils.go` line 53). -/
  | missingAccessToken
  /-- Error from `url.ParseQuery`: invalid semicolon separator in query. -/
  | invalidSemicolon
  /-- Error from `url.QueryUnescape` inside `url.ParseQuery`. -/
  | escapeError (s : String)
  /-- Error from `encoding/json` unmarshalling. -/
  | jsonError (msg : String)
  /-- Error "oauth2: token expired and refresh token is not set"
  (`client.go` line 91; the `part_000` V3 message omits the prefix). -/
  | refreshTokenNotSet
  /-- Error from `http.NewRequest` (malformed token URL). -/
  | urlErr (msg : String)
  /-- Transport error from `http.Client.Do`. -/
  | transport (msg : String)
deriving DecidableEq, Repr

/-- Rendering of the two error messages the spec quotes. -/
def Err.message : Err → String
  | .fetchFailed status statusText body =>
      "oauth2: cannot fetch token: " ++ toString status ++ " " ++ statusText ++
        "\nResponse: " ++ body
  | .missingAccessToken => "oauth2: server response missing access_token"
  | .invalidSemicolon => "invalid semicolon separator in query"
  | .escapeError s => "invalid URL escape " ++ s
  | .jsonError msg => msg
  | .refreshTokenNotSet => "oauth2: token expired and refresh token is not set"
  | .urlErr msg => msg
  | .transport msg => msg

/-- One step of `url.parseQuery`: handle one segment between ampersands. -/
def parseQuerySegment (m : Values) (err : Option Err) (seg : String) :
    Values × Option Err :=
  if seg.data.contains ';' then (m, err.orElse fun _ => some .invalidSemicolon)
  else if seg = "" then (m, err)
  else
    let (rawKey, rawVal) := match seg.data.findIdx? (· = '=') with
      | some i => ((⟨seg.data.take i⟩ : String), (⟨seg.data.drop (i+1)⟩ : String))
      | none => (seg, "")
    match queryUnescapeChars rawKey.data with
    | none => (m, err.orElse fun _ => some (.escapeError rawKey))
    | some key =>
      match queryUnescapeChars rawVal.data with
      | none => (m, err.orElse fun _ => some (.escapeError rawVal))
      | some val => (m.add ⟨key⟩ ⟨val⟩, err)

/-- Splitting on a separator character, with the semantics of
`strings.Cut` iterated as in `url.parseQuery`. -/
def splitChar (sep : Char) : List Char → List (List Char)
  | [] => [[]]
  | c :: rest =>
    let r := splitChar sep rest
    if c = sep then [] :: r
    else
      match r with
      | x :: xs => (c :: x) :: xs
      | [] => [[c]]

/-- Model of `url.ParseQuery`: split on ampersands, reject semicolons,
percent-decode keys and values, collect into a Values multimap; the
first error is reported but parsing continues. -/
def parseQuery (query : String) : Values × Option Err :=
  ((splitChar '&' query.data).map (fun cs => (⟨cs⟩ : String))).foldl
    (fun acc seg => parseQuerySegment acc.1 acc.2 seg) ([], none)

/-- Insertion of one entry into a key-sorted Values list (byte-wise key
order, which for UTF-8 agrees with code-point order). -/
def insertSortedByKey (p : String × List String) : Values → Values
  | [] => [p]
  | q :: qs =>
    if compare p.1 q.1 = .gt then q :: insertSortedByKey p qs else p :: q :: qs

/-- Keys in ascending order, as `sort.Strings` arranges them in `Encode`. -/
def sortByKey (v : Values) : Values := v.foldr insertSortedByKey []

/-- Method `url.Values.Encode`: keys sorted, each value escaped as
key=value, joined with ampersands. -/
def Values.encode (v : Values) : String :=
  String.intercalate "&"
    ((sortByKey v).flatMap fun (k, vs) =>
      vs.map fun val => queryEscape k ++ "=" ++ queryEscape val)

/-- Method `AuthCodeURLWithParams` (`src/unnamed/part_000` lines 47-74;
the Client method reads only its Config), split so the parameter
multimap it builds can be inspected: clone the caller values, Add
response_type and client_id, then Set redirect_uri, scope and state when
they are configured. -/
def authCodeValues (cfg : Config) (state : String) (vals : Values) : Values :=
  let v := cloneURLValues vals
  let v := v.add "response_type" "code"
  let v := v.add "client_id" cfg.ClientID
  let v := if cfg.RedirectURL ≠ "" then v.set "redirect_uri" cfg.RedirectURL else v
  let v := if cfg.Scopes ≠ [] then v.set "scope" (String.intercalate " " cfg.Scopes) else v
  if state ≠ "" then v.set "state" state else v

/-- Method `AuthCodeURLWithParams`: the consent URL, appending the
encoded parameters with an ampersand when AuthURL already has a query
string and a question mark otherwise. -/
def Config.AuthCodeURLWithParams (cfg : Config) (state : String) (vals : Values) : String :=
  cfg.AuthURL ++ (if cfg.AuthURL.data.contains '?' then "&" else "?") ++
    (authCodeValues cfg state vals).encode

/-- Method `AuthCodeURL` delegates with nil extra parameters. -/
def Config.AuthCodeURL (cfg : Config) (state : String) : String :=
  cfg.AuthCodeURLWithParams state []

example :
    Config.AuthCodeURL
      { ClientID := "CLIENT_ID", ClientSecret := "CLIENT_SECRET",
        RedirectURL := "REDIRECT_URL", AuthURL := "server:1234/auth",
        TokenURL := "server:1234/token" } "test-state"
    = "server:1234/auth?client_id=CLIENT_ID&redirect_uri=REDIRECT_URL&response_type=code&state=test-state" := by
  decide

example :
    Config.AuthCodeURL
      { ClientID := "CLIENT_ID", ClientSecret := "CLIENT_SECRET",
        RedirectURL := "REDIRECT_URL", AuthURL := "server:1234/auth?foo=bar",
        TokenURL := "server:1234/token" } "test-state"
    = "server:1234/auth?foo=bar&client_id=CLIENT_ID&redirect_uri=REDIRECT_URL&response_type=code&state=test-state" := by
  decide

example :
    Config.AuthCodeURLWithParams
      { ClientID := "CLIENT_ID", ClientSecret := "CLIENT_SECRET",
        RedirectURL := "REDIRECT_URL",
        Scopes := ["scope1", "scope2"],
        AuthURL := "server:1234/auth", TokenURL := "server:1234/token" }
      "test-state"
      [("access_type", ["anything"]), ("param1", ["value1"])]
    = "server:1234/auth?access_type=anything&client_id=CLIENT_ID&param1=value1&redirect_uri=REDIRECT_URL&response_type=code&scope=scope1+scope2&state=test-state" := by
  decide

/-- Setting a key binds exactly the one value under that key. -/
theorem Values.lookupKey_set_self (v : Values) (k val : String) :
    (v.set k val).lookupKey k = some [val] := by
  induction v with
  | nil => simp [Values.set, Values.lookupKey]
  | cons p rest ih =>
    obtain ⟨k', vs⟩ := p
    by_cases h : k' = k <;> simp [Values.set, Values.lookupKey, h, ih]

/-- Setting one key leaves the binding of any other key unchanged. -/
theorem Values.lookupKey_set_ne (v : Values) (k k' val : String) (h : k' ≠ k) :
    (v.set k val).lookupKey k' = v.lookupKey k' := by
  induction v with
  | nil => simp [Values.set, Values.lookupKey, Ne.symm h]
  | cons p rest ih =>
    obtain ⟨k0, vs⟩ := p
    by_cases h0 : k0 = k <;> by_cases h1 : k0 = k' <;>
      simp_all [Values.set, Values.lookupKey]

/-- Adding a value appends it to whatever was already bound to the key. -/
theorem Values.lookupKey_add_self (v : Values) (k val : String) :
    (v.add k val).lookupKey k = some ((v.lookupKey k).getD [] ++ [val]) := by
  induction v with
  | nil => simp [Values.add, Values.lookupKey]
  | cons p rest ih =>
    obtain ⟨k', vs⟩ := p
    by_cases h : k' = k <;> simp [Values.add, Values.lookupKey, h, ih]

/-- Adding under one key leaves the binding of any other key unchanged. -/
theorem Values.lookupKey_add_ne (v : Values) (k k' val : String) (h : k' ≠ k) :
    (v.add k val).lookupKey k' = v.lookupKey k' := by
  induction v with
  | nil => simp [Values.add, Values.lookupKey, Ne.symm h]
  | cons p rest ih =>
    obtain ⟨k0, vs⟩ := p
    by_cases h0 : k0 = k <;> by_cases h1 : k0 = k' <;>
      simp_all [Values.add, Values.lookupKey]

/-- Lookup after Set, in conditional form. -/
theorem Values.lookupKey_set_eq (v : Values) (k k' val : String) :
    (v.set k val).lookupKey k' =
      if k' = k then some [val] else v.lookupKey k' := by
  by_cases h : k' = k
  · subst h; simp [Values.lookupKey_set_self]
  · simp [h, Values.lookupKey_set_ne v k k' val h]

/-- Lookup after Add, in conditional form. -/
theorem Values.lookupKey_add_eq (v : Values) (k k' val : String) :
    (v.add k val).lookupKey k' =
      if k' = k then some ((v.lookupKey k).getD [] ++ [val]) else v.lookupKey k' := by
  by_cases h : k' = k
  · subst h; simp [Values.lookupKey_add_self]
  · simp [h, Values.lookupKey_add_ne v k k' val h]

/-- Claim C6 (counterexample): with fixed parameter response_type, a
caller-supplied response_type is not replaced; Add appends the fixed
value after the caller value, so the resulting query string carries
both, the caller value first — the collision is not resolved in favor of
the fixed value (the binding would then be exactly the code value). -/
theorem claim_C6_counterexample :
    (authCodeValues { ClientID := "CLIENT_ID", AuthURL := "server:1234/auth" } ""
        [("response_type", ["token"])]).lookupKey "response_type"
      = some ["token", "code"]
  ∧ some ["token", "code"] ≠ some ["code"]
  ∧ Config.AuthCodeURLWithParams { ClientID := "CLIENT_ID", AuthURL := "server:1234/auth" }
        "" [("response_type", ["token"])]
      = "server:1234/auth?client_id=CLIENT_ID&response_type=token&response_type=code"
  ∧ (authCodeValues { ClientID := "CLIENT_ID", AuthURL := "server:1234/auth" } ""
        [("response_type", ["token"])]).get "response_type" = "token" := by
  refine ⟨by decide, by decide, by decide, by decide⟩

/-- Claim C6 as amended: collisions on the Set-keys redirect_uri, scope
and state (when configured) are resolved in favor of the fixed value;
for the Add-keys response_type and client_id the fixed value is appended
after all caller values for that key, so the builder value is never
removed but a colliding caller value precedes it in the binding. -/
theorem claim_C6_amended (cfg : Config) (state : String) (vals : Values) :
    (cfg.RedirectURL ≠ "" →
      (authCodeValues cfg state vals).lookupKey "redirect_uri" = some [cfg.RedirectURL])
  ∧ (cfg.Scopes ≠ [] →
      (authCodeValues cfg state vals).lookupKey "scope"
        = some [String.intercalate " " cfg.Scopes])
  ∧ (state ≠ "" →
      (authCodeValues cfg state vals).lookupKey "state" = some [state])
  ∧ (authCodeValues cfg state vals).lookupKey "response_type"
      = some ((vals.lookupKey "response_type").getD [] ++ ["code"])
  ∧ (authCodeValues cfg state vals).lookupKey "client_id"
      = some ((vals.lookupKey "client_id").getD [] ++ [cfg.ClientID]) := by
  by_cases h1 : cfg.RedirectURL = "" <;> by_cases h2 : cfg.Scopes = [] <;>
    by_cases h3 : state = "" <;>
    simp_all [authCodeValues, cloneURLValues,
      Values.lookupKey_set_eq, Values.lookupKey_add_eq]

/-- Witness for the amended C6 at a concrete configuration. -/
theorem claim_C6_witness :
    (authCodeValues
        { ClientID := "CLIENT_ID", AuthURL := "a", RedirectURL := "REDIRECT_URL" }
        "st" []).lookupKey "redirect_uri" = some ["REDIRECT_URL"] :=
  (claim_C6_amended
    { ClientID := "CLIENT_ID", AuthURL := "a", RedirectURL := "REDIRECT_URL" }
    "st" []).1 (by decide)

/-- Model of `net/http.StatusText` for the codes the library can see. -/
def statusText (code : Nat) : String :=
  match code with
  | 100 => "Continue"
  | 101 => "Switching Protocols"
  | 102 => "Processing"
  | 103 => "Early Hints"
  | 200 => "OK"
  | 201 => "Created"
  | 202 => "Accepted"
  | 203 => "Non-Authoritative Information"
  | 204 => "No Content"
  | 205 => "Reset Content"
  | 206 => "Partial Content"
  | 207 => "Multi-Status"
  | 208 => "Already Reported"
  | 226 => "IM Used"
  | 300 => "Multiple Choices"
  | 301 => "Moved Permanently"
  | 302 => "Found"
  | 303 => "See Other"
  | 304 => "Not Modified"
  | 305 => "Use Proxy"
  | 307 => "Temporary Redirect"
  | 308 => "Permanent Redirect"
  | 400 => "Bad Request"
  | 401 => "Unauthorized"
  | 402 => "Payment Required"
  | 403 => "Forbidden"
  | 404 => "Not Found"
  | 405 => "Method Not Allowed"
  | 406 => "Not Acceptable"
  | 407 => "Proxy Authentication Required"
  | 408 => "Request Timeout"
  | 409 => "Conflict"
  | 410 => "Gone"
  | 411 => "Length Required"
  | 412 => "Precondition Failed"
  | 413 => "Request Entity Too Large"
  | 414 => "Request URI Too Long"
  | 415 => "Unsupported Media Type"
  | 416 => "Requested Range Not Satisfiable"
  | 417 => "Expectation Failed"
  | 418 => "I\x27m a teapot"
  | 421 => "Misdirected Request"
  | 422 => "Unprocessable Entity"
  | 423 => "Locked"
  | 424 => "Failed Dependency"
  | 425 => "Too Early"
  | 426 => "Upgrade Required"
  | 428 => "Precondition Required"
  | 429 => "Too Many Requests"
  | 431 => "Request Header Fields Too Large"
  | 451 => "Unavailable For Legal Reasons"
  | 500 => "Internal Server Error"
  | 501 => "Not Implemented"
  | 502 => "Bad Gateway"
  | 503 => "Service Unavailable"
  | 504 => "Gateway Timeout"
  | 505 => "HTTP Version Not Supported"
  | 506 => "Variant Also Negotiates"
  | 507 => "Insufficient Storage"
  | 508 => "Loop Detected"
  | 510 => "Not Extended"
  | 511 => "Network Authentication Required"
  | _ => ""

/-- An HTTP response as the parser sees it: status code, the
Content-Type header, and the body (already read; the 1 MiB read cap and
read errors of the byte stream are outside the value model). -/
structure Response where
  status : Nat
  contentType : String
  body : String
deriving DecidableEq, Repr

/-- Lower-casing as done by `mime.ParseMediaType` (ASCII suffices here). -/
def toLowerString (s : String) : String := ⟨s.data.map Char.toLower⟩

/-- Function `responseContentType` from `utils.go`: `mime.ParseMediaType`
keeps the part before any semicolon, trimmed and lower-cased (its
parameter parsing and validation errors are ignored by the caller). -/
def responseContentType (resp : Response) : String :=
  toLowerString (trimSpace ⟨resp.contentType.data.takeWhile (· ≠ ';')⟩)

/-- Function `parseText` from `utils.go` lines 64-83: parse the body as a
query string, build the token from access_token, token_type and
refresh_token, set Raw to the parameter multimap, and give the token an
expiry of now plus expires_in seconds when Atoi of expires_in is
non-zero (Atoi errors are discarded).  `now` is `time.Now()` in
nanoseconds. -/
def parseText (now : Int) (body : String) : Except Err Token :=
  match parseQuery body with
  | (_, some e) => .error e
  | (vals, none) =>
    let token : Token :=
      { AccessToken := vals.get "access_token"
        TokenType := vals.get "token_type"
        RefreshToken := vals.get "refresh_token"
        Expiry := none
        Raw := .formValues vals }
    let expires := atoiIgnoringError (vals.get "expires_in")
    if expires ≠ 0 then
      .ok { token with Expiry := some (now + expires * 1000000000) }
    else .ok token

/-- JSON insignificant white space. -/
def skipWsChars : List Char → List Char
  | [] => []
  | c :: cs =>
    if c = ' ' ∨ c = '\t' ∨ c = '\n' ∨ c = '\r' then skipWsChars cs else c :: cs

/-- One escape character of a JSON string (\u handled by the caller). -/
def jsonEscapeChar (c : Char) : Option Char :=
  if c = '"' then some '"'
  else if c = '\\' then some '\\'
  else if c = '/' then some '/'
  else if c = 'b' then some '\x08'
  else if c = 'f' then some '\x0c'
  else if c = 'n' then some '\n'
  else if c = 'r' then some '\r'
  else if c = 't' then some '\t'
  else none

/-- Body of a JSON string literal after the opening quote; yields the
decoded text and the rest of the input. -/
def parseJSONString : List Char → Option (List Char × List Char)
  | [] => none
  | '"' :: rest => some ([], rest)
  | '\\' :: esc =>
    match esc with
    | 'u' :: a :: b :: c :: d :: rest =>
      match hexVal a, hexVal b, hexVal c, hexVal d with
      | some ha, some hb, some hc, some hd =>
        match parseJSONString rest with
        | some (s, rest1) =>
          some (Char.ofNat (((ha * 16 + hb) * 16 + hc) * 16 + hd) :: s, rest1)
        | none => none
      | _, _, _, _ => none
    | e :: rest =>
      match jsonEscapeChar e with
      | some c =>
        match parseJSONString rest with
        | some (s, rest1) => some (c :: s, rest1)
        | none => none
      | none => none
    | [] => none
  | c :: rest =>
    match parseJSONString rest with
    | some (s, rest1) => some (c :: s, rest1)
    | none => none

/-- Exponent part of a JSON number (also accepts its absence). -/
def jsonExpPart (acc : List Char) (cs : List Char) : Option (List Char × List Char) :=
  match cs with
  | e :: r =>
    if e = 'e' ∨ e = 'E' then
      let (sgn, r1) := match r with
        | '+' :: rr => (['+'], rr)
        | '-' :: rr => (['-'], rr)
        | rr => (([] : List Char), rr)
      let ds := r1.takeWhile isDigitChar
      if ds = [] then none
      else some (acc ++ e :: (sgn ++ ds), r1.dropWhile isDigitChar)
    else some (acc, cs)
  | [] => some (acc, [])

/-- Fractional part of a JSON number (also accepts its absence). -/
def jsonFracPart (acc : List Char) (cs : List Char) : Option (List Char × List Char) :=
  match cs with
  | '.' :: r =>
    let ds := r.takeWhile isDigitChar
    if ds = [] then none
    else jsonExpPart (acc ++ '.' :: ds) (r.dropWhile isDigitChar)
  | _ => jsonExpPart acc cs

/-- A JSON number literal: optional minus, an integer part with no
leading zero, optional fraction and exponent; yields the literal text. -/
def lexJSONNumber (cs : List Char) : Option (List Char × List Char) :=
  let (sign, cs1) := match cs with
    | '-' :: r => ((['-'] : List Char), r)
    | _ => (([] : List Char), cs)
  match cs1 with
  | '0' :: r => jsonFracPart (sign ++ ['0']) r
  | c :: r =>
    if isDigitChar c ∧ c ≠ '0' then
      jsonFracPart (sign ++ c :: r.takeWhile isDigitChar) (r.dropWhile isDigitChar)
    else none
  | [] => none

mutual

/-- A JSON value, by recursive descent with fuel (the fuel bounds the
nesting and member count and is at least the input length at top level). -/
def parseJSONValue : Nat → List Char → Option (JSONValue × List Char)
  | 0, _ => none
  | Nat.succ fuel, cs =>
    match skipWsChars cs with
    | 'n' :: 'u' :: 'l' :: 'l' :: rest => some (.null, rest)
    | 't' :: 'r' :: 'u' :: 'e' :: rest => some (.bool true, rest)
    | 'f' :: 'a' :: 'l' :: 's' :: 'e' :: rest => some (.bool false, rest)
    | '"' :: rest =>
      match parseJSONString rest with
      | some (s, rest1) => some (.str ⟨s⟩, rest1)
      | none => none
    | '[' :: rest =>
      match skipWsChars rest with
      | ']' :: rest1 => some (.arr [], rest1)
      | rest1 =>
        match parseJSONElems fuel rest1 with
        | some (xs, rest2) => some (.arr xs, rest2)
        | none => none
    | '\x7b' :: rest =>
      match skipWsChars rest with
      | '\x7d' :: rest1 => some (.obj [], rest1)
      | rest1 =>
        match parseJSONMembers fuel rest1 with
        | some (ms, rest2) => some (.obj ms, rest2)
        | none => none
    | rest =>
      match lexJSONNumber rest with
      | some (lit, rest1) => some (.num ⟨lit⟩, rest1)
      | none => none

/-- Array elements after the opening bracket (non-empty case). -/
def parseJSONElems : Nat → List Char → Option (List JSONValue × List Char)
  | 0, _ => none
  | Nat.succ fuel, cs =>
    match parseJSONValue fuel cs with
    | none => none
    | some (v, rest) =>
      match skipWsChars rest with
      | ',' :: rest1 =>
        match parseJSONElems fuel rest1 with
        | some (vs, rest2) => some (v :: vs, rest2)
        | none => none
      | ']' :: rest1 => some ([v], rest1)
      | _ => none

/-- Object members after the opening brace (non-empty case). -/
def parseJSONMembers : Nat → List Char → Option (List (String × JSONValue) × List Char)
  | 0, _ => none
  | Nat.succ fuel, cs =>
    match skipWsChars cs with
    | '"' :: rest =>
      match parseJSONString rest with
      | none => none
      | some (k, rest1) =>
        match skipWsChars rest1 with
        | ':' :: rest2 =>
          match parseJSONValue fuel rest2 with
          | none => none
          | some (v, rest3) =>
            match skipWsChars rest3 with
            | ',' :: rest4 =>
              match parseJSONMembers fuel rest4 with
              | some (ms, rest5) => some ((⟨k⟩, v) :: ms, rest5)
              | none => none
            | '\x7d' :: rest4 => some ([(⟨k⟩, v)], rest4)
            | _ => none
        | _ => none
    | _ => none

end

/-- Model of the top-level scan of `encoding/json`: one value, with only
white space allowed after it. -/
def jsonParse (s : String) : Option JSONValue :=
  match parseJSONValue (s.length + 1) s.data with
  | some (v, rest) => if skipWsChars rest = [] then some v else none
  | none => none

example : jsonParse "\x7b\"a\": 1, \"b\": [true, null]\x7d"
    = some (.obj [("a", .num "1"), ("b", .arr [.bool true, .null])]) := by rfl
example : jsonParse " \"x\" " = some (.str "x") := by rfl
example : jsonParse "-12.5e3" = some (.num "-12.5e3") := by rfl
example : jsonParse "\x7b" = none := by rfl

/-- Model of `encoding/json.isValidNumber`: the whole string is one JSON
number token. -/
def isValidNumber (s : String) : Bool :=
  match lexJSONNumber s.data with
  | some (_, []) => true
  | _ => false

/-- Conversion to `int32` as in `expirationTime(i)` (wrap-around; the
preceding clamp already rules out values above 2^31 - 1). -/
def toInt32Wrap (i : Int) : Int := (i + 2 ^ 31) % 2 ^ 32 - 2 ^ 31

/-- Shared tail of `expirationTime.UnmarshalJSON`: `json.Number.Int64`
(that is, `strconv.ParseInt` on the literal), the clamp at 2^31 - 1 and
the store into the int32. -/
def numberToExpiration (numStr : String) : Except Err Int :=
  match parseInt64 numStr with
  | none => .error (.jsonError "cannot unmarshal number into int64")
  | some i => .ok (toInt32Wrap (if i > 2 ^ 31 - 1 then 2 ^ 31 - 1 else i))

/-- Method `expirationTime.UnmarshalJSON` from `token.go` lines 423-444,
on the raw bytes of the field value: empty input or the literal null are
a no-op (the field keeps its zero value); a JSON number is read into a
`json.Number`; a JSON string is accepted by `encoding/json` for a
Number target when its content is a valid number token; then `Int64`
plus the clamp. -/
def expirationTimeUnmarshalJSON (b : String) : Except Err Int :=
  if b.length = 0 ∨ b = "null" then .ok 0
  else
    match jsonParse b with
    | some (.num lit) => numberToExpiration lit
    | some (.str s) =>
      if isValidNumber s then numberToExpiration s
      else .error (.jsonError "invalid number literal")
    | _ => .error (.jsonError "cannot unmarshal value into json.Number")

/-- The same unmarshalling on an already-parsed JSON value, used when
decoding a whole `tokenJSON` object (the decoder hands `UnmarshalJSON`
the raw bytes of the member value; null bytes hit the no-op branch). -/
def expirationTimeFromJSON (v : JSONValue) : Except Err Int :=
  match v with
  | .null => .ok 0
  | .num lit => numberToExpiration lit
  | .str s =>
    if isValidNumber s then numberToExpiration s
    else .error (.jsonError "invalid number literal")
  | _ => .error (.jsonError "cannot unmarshal value into json.Number")

/-- Struct `tokenJSON` from `token.go` lines 407-412 (`ExpiresIn` is the
int32 `expirationTime`). -/
structure TokenJSON where
  AccessToken : String := ""
  TokenType : String := ""
  RefreshToken : String := ""
  ExpiresIn : Int := 0
deriving DecidableEq, Repr

/-- Method `tokenJSON.expiry` from `token.go` lines 414-419: now plus
ExpiresIn seconds when non-zero, otherwise the zero time. -/
def TokenJSON.expiry (tj : TokenJSON) (now : Int) : Option Int :=
  if tj.ExpiresIn ≠ 0 then some (now + tj.ExpiresIn * 1000000000) else none

/-- One member of the JSON object applied to the `tokenJSON` being
decoded.  Field names match case-insensitively as in `encoding/json`; a
type mismatch stores the first error but decoding continues; null into
a string field is a no-op; unknown fields are ignored. -/
def applyTokenJSONField (acc : TokenJSON × Option Err) (kv : String × JSONValue) :
    TokenJSON × Option Err :=
  let (tj, err) := acc
  let k := toLowerString kv.1
  if k = "access_token" then
    match kv.2 with
    | .str s => ({ tj with AccessToken := s }, err)
    | .null => (tj, err)
    | _ => (tj, err.orElse fun _ => some (.jsonError "cannot unmarshal value into string"))
  else if k = "token_type" then
    match kv.2 with
    | .str s => ({ tj with TokenType := s }, err)
    | .null => (tj, err)
    | _ => (tj, err.orElse fun _ => some (.jsonError "cannot unmarshal value into string"))
  else if k = "refresh_token" then
    match kv.2 with
    | .str s => ({ tj with RefreshToken := s }, err)
    | .null => (tj, err)
    | _ => (tj, err.orElse fun _ => some (.jsonError "cannot unmarshal value into string"))
  else if k = "expires_in" then
    match expirationTimeFromJSON kv.2 with
    | .ok i => ({ tj with ExpiresIn := i }, err)
    | .error e => (tj, err.orElse fun _ => some e)
  else (tj, err)

/-- Model of `json.Unmarshal(body, &tj)` for the `tokenJSON` struct:
the body must be one JSON value; null is a no-op, an object is decoded
member by member, anything else is a type error. -/
def unmarshalTokenJSON (body : String) : Except Err TokenJSON :=
  match jsonParse body with
  | none => .error (.jsonError "invalid JSON")
  | some .null => .ok {}
  | some (.obj ms) =>
    match ms.foldl applyTokenJSONField ({}, none) with
    | (_, some e) => .error e
    | (tj, none) => .ok tj
  | some _ => .error (.jsonError "cannot unmarshal value into tokenJSON")

/-- Replace-or-append for the generic JSON map (later duplicate keys
overwrite earlier ones, as in decoding into a Go map). -/
def mapSet : List (String × JSONValue) → String → JSONValue → List (String × JSONValue)
  | [], key, v => [(key, v)]
  | (k, w) :: rest, key, v =>
    if k = key then (k, v) :: rest else (k, w) :: mapSet rest key v

/-- Duplicate-key resolution for the generic decode of the body. -/
def dedupeJSONMap (ms : List (String × JSONValue)) : List (String × JSONValue) :=
  ms.foldl (fun acc kv => mapSet acc kv.1 kv.2) []

/-- Function `parseJSON` from `utils.go` lines 85-102: decode the body
into `tokenJSON`, then best-effort decode the whole body into the Raw
map, ignoring errors (a JSON null body overwrites Raw with nil; on any
other failure Raw stays the empty map just made). -/
def parseJSON (now : Int) (body : String) : Except Err Token :=
  match unmarshalTokenJSON body with
  | .error e => .error e
  | .ok tj =>
    let raw : RawData :=
      match jsonParse body with
      | some (.obj ms) => .jsonMap (dedupeJSONMap ms)
      | some .null => .nil
      | _ => .jsonMap []
    .ok { AccessToken := tj.AccessToken, TokenType := tj.TokenType,
          RefreshToken := tj.RefreshToken, Expiry := tj.expiry now,
          Raw := raw }

/-- The content-type switch of `parseResponse` (`utils.go` lines
42-47): form-style bodies go to `parseText`, everything else defaults
to `parseJSON`. -/
def parseResponseBody (resp : Response) (now : Int) : Except Err Token :=
  match responseContentType resp with
  | "text/plain" => parseText now resp.body
  | "application/x-www-form-urlencoded" => parseText now resp.body
  | _ => parseJSON now resp.body

/-- Continuation of `parseResponse`: the error/empty-token switch at
`utils.go` lines 49-56. -/
def parseResponse (resp : Response) (now : Int) : Except Err Token :=
  if resp.status < 200 ∨ resp.status > 299 then
    .error (.fetchFailed resp.status (statusText resp.status) resp.body)
  else
    match parseResponseBody resp now with
    | .error e => .error e
    | .ok token =>
      if token.AccessToken = "" then .error .missingAccessToken
      else .ok token

example :
    (parseResponse
      { status := 200, contentType := "application/x-www-form-urlencoded",
        body := "access_token=90d64460d14870c08c81352a05dedd3465940a7c&scope=user&token_type=bearer" }
      0).toOption.map (fun t => (t.AccessToken, t.TokenType, t.Expiry))
    = some ("90d64460d14870c08c81352a05dedd3465940a7c", "bearer", none) := by rfl

example :
    (parseResponse
      { status := 200, contentType := "application/json",
        body := "\x7b\"access_token\": \"ProperToken\", \"scope\": \"user\", \"token_type\": \"bearer\", \"expires_in\": 86400\x7d" }
      5).toOption.map (fun t => (t.AccessToken, t.TokenType, t.Expiry))
    = some ("ProperToken", "bearer", some (5 + 86400 * 1000000000)) := by rfl

example :
    parseResponse
      { status := 200, contentType := "application/json",
        body := "\x7b\"scope\": \"user\", \"token_type\": \"bearer\"\x7d" } 0
    = .error .missingAccessToken := by rfl

example :
    (parseResponse
      { status := 200, contentType := "application/json",
        body := "\x7b\"access_token\":123, \"scope\": \"user\", \"token_type\": \"bearer\"\x7d" } 0).isOk
    = false := by rfl

example :
    parseResponse
      { status := 400, contentType := "application/json",
        body := "\x7b\"error\": \"invalid_grant\"\x7d" } 0
    = .error (.fetchFailed 400 "Bad Request" "\x7b\"error\": \"invalid_grant\"\x7d") := by rfl

example :
    (Err.fetchFailed 400 "Bad Request" "\x7b\"error\": \"invalid_grant\"\x7d").message
    = "oauth2: cannot fetch token: 400 Bad Request\nResponse: \x7b\"error\": \"invalid_grant\"\x7d" := by rfl

example :
    (parseResponse
      { status := 200, contentType := "application/json",
        body := "\x7b\"access_token\": \"90d\", \"expires_in\": \"86400\"\x7d" }
      0).toOption.map (fun t => t.Expiry) = some (some (86400 * 1000000000)) := by rfl

example :
    (parseResponse
      { status := 200, contentType := "application/json",
        body := "\x7b\"access_token\": \"90d\", \"expires_in\": false\x7d" } 0).isOk
    = false := by rfl

example :
    (parseResponse
      { status := 200, contentType := "application/json",
        body := "\x7b\"access_token\": \"90d\", \"expires_in\": \"zzz\"\x7d" } 0).isOk
    = false := by rfl

example :
    (parseResponse
      { status := 200, contentType := "application/json",
        body := "\x7b\"access_token\": \"90d\", \"expires_in\": null\x7d" }
      0).toOption.map (fun t => t.Expiry) = some none := by rfl

/-- Claim C4: a response status outside 200..299 fails with an error
embedding the status code, status text and raw body; a status in range
whose body parses to a token with empty AccessToken fails with the
distinct missing-access_token error; otherwise the parsed token (or the
body parse error) is returned. -/
theorem claim_C4 (resp : Response) (now : Int) (t : Token) (e : Err) :
    (resp.status < 200 ∨ resp.status > 299 →
      parseResponse resp now
        = .error (.fetchFailed resp.status (statusText resp.status) resp.body))
  ∧ (200 ≤ resp.status → resp.status ≤ 299 →
      (parseResponseBody resp now = .error e → parseResponse resp now = .error e)
      ∧ (parseResponseBody resp now = .ok t → t.AccessToken = "" →
          parseResponse resp now = .error .missingAccessToken)
      ∧ (parseResponseBody resp now = .ok t → t.AccessToken ≠ "" →
          parseResponse resp now = .ok t))
  ∧ Err.missingAccessToken.message = "oauth2: server response missing access_token"
  ∧ (∀ st b : String, Err.missingAccessToken ≠ .fetchFailed resp.status st b) := by
  refine ⟨fun h => ?_, fun h1 h2 => ?_, rfl, by simp⟩
  · simp [parseResponse, h]
  · have hno : ¬ (resp.status < 200 ∨ resp.status > 299) := by omega
    exact ⟨fun hb => by simp [parseResponse, hno, hb],
           fun hb ha => by simp [parseResponse, hno, hb, ha],
           fun hb ha => by simp [parseResponse, hno, hb, ha]⟩

/-- Witness for C4: a 404 response fails with the status error. -/
theorem claim_C4_witness :
    parseResponse { status := 404, contentType := "application/json", body := "nope" } 0
      = .error (.fetchFailed 404 "Not Found" "nope") :=
  (claim_C4 { status := 404, contentType := "application/json", body := "nope" }
    0 {} .missingAccessToken).1 (by decide)

/-- Int32 wrap is the identity on the int32 range. -/
theorem toInt32Wrap_eq_self (i : Int) (h1 : -(2 ^ 31) ≤ i) (h2 : i ≤ 2 ^ 31 - 1) :
    toInt32Wrap i = i := by
  unfold toInt32Wrap
  rw [Int.emod_eq_of_lt (by omega) (by omega)]
  omega

/-- Int32 wrap never exceeds 2^31 - 1. -/
theorem toInt32Wrap_le (i : Int) : toInt32Wrap i ≤ 2 ^ 31 - 1 := by
  unfold toInt32Wrap
  have h1 := Int.emod_lt_of_pos (i + 2 ^ 31) (by omega : (0 : Int) < 2 ^ 32)
  have h2 := Int.emod_nonneg (i + 2 ^ 31) (by omega : (2 ^ 32 : Int) ≠ 0)
  omega

/-- Clamp-then-store bound for the shared tail of UnmarshalJSON. -/
theorem numberToExpiration_le (s : String) (i : Int)
    (h : numberToExpiration s = .ok i) : i ≤ 2 ^ 31 - 1 := by
  unfold numberToExpiration at h
  rcases hp : parseInt64 s with _ | v <;> rw [hp] at h
  · cases h
  · cases h
    exact toInt32Wrap_le _

/-- Claim C7: expires_in as a JSON number or a JSON string holding an
integer is coerced to integer seconds and clamped to at most 2^31 - 1;
null or absent expires_in leaves the zero value, which gives the zero
Expiry; any non-zero coerced value gives Expiry = now plus that many
seconds. -/
theorem claim_C7 (b lit s : String) (i v now : Int) :
    (expirationTimeUnmarshalJSON b = .ok i → i ≤ 2 ^ 31 - 1)
  ∧ expirationTimeUnmarshalJSON "null" = .ok 0
  ∧ expirationTimeUnmarshalJSON "" = .ok 0
  ∧ (parseInt64 lit = some v → -(2 ^ 31) ≤ v →
      expirationTimeFromJSON (.num lit) = .ok (min v (2 ^ 31 - 1)))
  ∧ (parseInt64 s = some v → -(2 ^ 31) ≤ v → isValidNumber s →
      expirationTimeFromJSON (.str s) = .ok (min v (2 ^ 31 - 1)))
  ∧ TokenJSON.expiry { ExpiresIn := 0 } now = none
  ∧ (i ≠ 0 → TokenJSON.expiry { ExpiresIn := i } now = some (now + i * 1000000000))
  ∧ expirationTimeUnmarshalJSON "86400" = .ok 86400
  ∧ expirationTimeUnmarshalJSON "\"86400\"" = .ok 86400
  ∧ expirationTimeUnmarshalJSON "3000000000" = .ok (2 ^ 31 - 1)
  ∧ expirationTimeUnmarshalJSON "\"3000000000\"" = .ok (2 ^ 31 - 1) := by
  have hclamp : ∀ w : Int, -(2 ^ 31) ≤ w →
      toInt32Wrap (if w > 2 ^ 31 - 1 then 2 ^ 31 - 1 else w) = min w (2 ^ 31 - 1) := by
    intro w hw
    by_cases h : w > 2 ^ 31 - 1 <;>
      simp only [h, if_true, if_false, ite_true, ite_false, if_pos, if_neg,
        not_lt, gt_iff_lt] <;>
      rw [toInt32Wrap_eq_self _ (by omega) (by omega)] <;> omega
  refine ⟨fun h => ?_, by rfl, by rfl, fun hp hge => ?_, fun hp hge hv => ?_,
    by simp [TokenJSON.expiry], fun hne => by simp [TokenJSON.expiry, hne],
    by rfl, by rfl, by rfl, by rfl⟩
  · unfold expirationTimeUnmarshalJSON at h
    split at h
    · cases h; omega
    · rcases hj : jsonParse b with _ | w <;> rw [hj] at h
      · cases h
      · cases w <;> simp only [] at h
        · cases h
        · cases h
        · exact numberToExpiration_le _ _ h
        · rename_i ws
          by_cases hvn : isValidNumber ws
          · rw [if_pos hvn] at h; exact numberToExpiration_le _ _ h
          · rw [if_neg hvn] at h; cases h
        · cases h
        · cases h
  · simp only [expirationTimeFromJSON, numberToExpiration, hp]
    rw [hclamp v hge]
  · simp only [expirationTimeFromJSON, numberToExpiration, hp, hv, if_true]
    rw [hclamp v hge]

/-- Witness for C7: the number literal 5 is coerced to 5 seconds. -/
theorem claim_C7_witness :
    expirationTimeFromJSON (.num "5") = .ok (min 5 (2 ^ 31 - 1)) :=
  (claim_C7 "" "5" "5" 0 5 0).2.2.2.1 (by decide) (by decide)

/-- An outgoing token request as built by `newTokenRequest`: auth mode,
target URL, form body (client credentials merged in for InParams), and
the HTTP Basic credentials when in InHeader mode (percent-escaped, as
`SetBasicAuth(url.QueryEscape(clientID), url.QueryEscape(clientSecret))`
does). -/
structure Request where
  mode : Mode
  url : String
  body : Values
  basicAuth : Option (String × String)
deriving DecidableEq, Repr

/-- The environment of one retrieval: the outcome of `http.NewRequest`
for the configured token URL, and the transport (`http.Client.Do`) as
an oracle from requests to responses. -/
structure Env where
  urlError : Option Err
  send : Request → Except Err Response

/-- Method `newTokenRequest` (`client.go` lines 149-172 and the
identical `part_000` versions): in InParams mode the client id and
secret are Set into a clone of the body when non-empty; the request
fails iff `http.NewRequest` fails on the URL; in InHeader mode Basic
auth carries the percent-escaped credentials. -/
def newTokenRequest (cfg : Config) (env : Env) (mode : Mode) (v : Values) :
    Except Err Request :=
  let v2 :=
    if mode = .InParamsMode then
      let w := cloneURLValues v
      let w := if cfg.ClientID ≠ "" then w.set "client_id" cfg.ClientID else w
      if cfg.ClientSecret ≠ "" then w.set "client_secret" cfg.ClientSecret else w
    else v
  match env.urlError with
  | some e => .error e
  | none =>
    .ok { mode := mode, url := cfg.TokenURL, body := v2,
          basicAuth :=
            if mode = .InHeaderMode then
              some (queryEscape cfg.ClientID, queryEscape cfg.ClientSecret)
            else none }

/-- Method `retrieveToken` of the `client.go` revision (lines 110-143),
called V1: build, send; on a send error retry once with InParams iff the
configured mode was AutoDetect, caching the mode on the Config as soon
as the second send succeeds; the response of whichever send succeeded is
then parsed.  The third component lists the modes actually sent. -/
def retrieveTokenV1 (cfg : Config) (env : Env) (now : Int) (vals : Values) :
    Except Err Token × Config × List Mode :=
  let mode := if cfg.Mode = .AutoDetectMode then Mode.InHeaderMode else cfg.Mode
  match newTokenRequest cfg env mode vals with
  | .error e => (.error e, cfg, [])
  | .ok req =>
    match env.send req with
    | .ok resp => (parseResponse resp now, cfg, [mode])
    | .error e =>
      if cfg.Mode ≠ .AutoDetectMode then (.error e, cfg, [mode])
      else
        match newTokenRequest cfg env .InParamsMode vals with
        | .error e2 => (.error e2, cfg, [mode])
        | .ok req2 =>
          match env.send req2 with
          | .error e2 => (.error e2, cfg, [mode, .InParamsMode])
          | .ok resp2 =>
            (parseResponse resp2 now, { cfg with Mode := .InParamsMode },
              [mode, .InParamsMode])

/-- Method `makeRequest` of the `part_000` V2 revision (lines 160-174),
also the body of `doRequest` of the V3 revision (lines 340-356): build
the request, send it, parse the response; any of the three failing
fails the attempt. -/
def makeRequest (cfg : Config) (env : Env) (now : Int) (mode : Mode) (vals : Values) :
    Except Err Token :=
  match newTokenRequest cfg env mode vals with
  | .error e => .error e
  | .ok req =>
    match env.send req with
    | .error e => .error e
    | .ok resp => parseResponse resp now

/-- Method `retrieveToken` of the `part_000` V2 revision (lines
135-158): one attempt; on any failure retry once with InParams iff the
configured mode was AutoDetect, caching the mode only when the retry
fully succeeds. -/
def retrieveTokenV2 (cfg : Config) (env : Env) (now : Int) (vals : Values) :
    Except Err Token × Config × List Mode :=
  let mode := if cfg.Mode = .AutoDetectMode then Mode.InHeaderMode else cfg.Mode
  match makeRequest cfg env now mode vals with
  | .ok token => (.ok token, cfg, [mode])
  | .error e =>
    if cfg.Mode ≠ .AutoDetectMode then (.error e, cfg, [mode])
    else
      match makeRequest cfg env now .InParamsMode vals with
      | .error e2 => (.error e2, cfg, [mode, .InParamsMode])
      | .ok token =>
        (.ok token, { cfg with Mode := .InParamsMode }, [mode, .InParamsMode])

/-- Method `retrieveToken` of the `part_000` V3 revision (lines
314-338): as V2, but the mode in use is cached on the Config after any
fully successful attempt, including a successful first attempt. -/
def retrieveTokenV3 (cfg : Config) (env : Env) (now : Int) (vals : Values) :
    Except Err Token × Config × List Mode :=
  let mode := if cfg.Mode = .AutoDetectMode then Mode.InHeaderMode else cfg.Mode
  match makeRequest cfg env now mode vals with
  | .ok token => (.ok token, { cfg with Mode := mode }, [mode])
  | .error e =>
    if cfg.Mode ≠ .AutoDetectMode then (.error e, cfg, [mode])
    else
      match makeRequest cfg env now .InParamsMode vals with
      | .error e2 => (.error e2, cfg, [mode, .InParamsMode])
      | .ok token =>
        (.ok token, { cfg with Mode := .InParamsMode }, [mode, .InParamsMode])

/-- Function `RetrieveToken` from `token.go` lines 199-242 (the
golang.org/x/oauth2 copy): probe InHeader first when the style is
auto-detect, fall back to InParams on any error, and afterwards default
an empty RefreshToken of the obtained token to the refresh_token that
was sent in the request.  `round` is `doTokenRoundTrip` composed with
`newTokenRequest` as an oracle per auth style. -/
def RetrieveTokenGo (authStyle : Mode) (round : Mode → Except Err Token)
    (v : Values) : Except Err Token :=
  let style := if authStyle = .AutoDetectMode then Mode.InHeaderMode else authStyle
  let r : Except Err Token :=
    match round style with
    | .ok t => .ok t
    | .error e =>
      if authStyle = .AutoDetectMode then round .InParamsMode else .error e
  match r with
  | .ok t =>
    if t.RefreshToken = "" then .ok { t with RefreshToken := v.get "refresh_token" }
    else .ok t
  | .error e => .error e

/-- Struct `Client` from `client.go` lines 7-12: a Config and the stored
refresh token (the transport handle lives in `Env` here). -/
structure Client where
  config : Config
  refreshToken : String
deriving DecidableEq, Repr

/-- The form parameters built by `Client.Token`. -/
def refreshParams (rt : String) : Values :=
  [("grant_type", ["refresh_token"]), ("refresh_token", [rt])]

/-- Method `Client.Token` of the `client.go` revision (lines 89-108):
fail fast when no refresh token is stored, otherwise retrieve with
grant_type refresh_token and store the RefreshToken of the obtained
token. -/
def clientTokenV1 (c : Client) (env : Env) (now : Int) :
    Except Err Token × Client × List Mode :=
  if c.refreshToken = "" then (.error .refreshTokenNotSet, c, [])
  else
    match retrieveTokenV1 c.config env now (refreshParams c.refreshToken) with
    | (.error e, cfg2, tr) =>
      (.error e, { config := cfg2, refreshToken := c.refreshToken }, tr)
    | (.ok token, cfg2, tr) =>
      (.ok token,
        { config := cfg2,
          refreshToken :=
            if c.refreshToken ≠ token.RefreshToken then token.RefreshToken
            else c.refreshToken },
        tr)

/-- Method `Client.Token` of the `part_000` V2 revision (lines 114-133):
identical logic over the V2 retrieval. -/
def clientTokenV2 (c : Client) (env : Env) (now : Int) :
    Except Err Token × Client × List Mode :=
  if c.refreshToken = "" then (.error .refreshTokenNotSet, c, [])
  else
    match retrieveTokenV2 c.config env now (refreshParams c.refreshToken) with
    | (.error e, cfg2, tr) =>
      (.error e, { config := cfg2, refreshToken := c.refreshToken }, tr)
    | (.ok token, cfg2, tr) =>
      (.ok token,
        { config := cfg2,
          refreshToken :=
            if c.refreshToken ≠ token.RefreshToken then token.RefreshToken
            else c.refreshToken },
        tr)

/-- Method `Client.Token` of the `part_000` V3 revision (lines 302-312):
the refresh token is a parameter, the precondition is the same, and
nothing is stored back. -/
def clientTokenV3 (cfg : Config) (refreshToken : String) (env : Env) (now : Int) :
    Except Err Token × Config × List Mode :=
  if refreshToken = "" then (.error .refreshTokenNotSet, cfg, [])
  else retrieveTokenV3 cfg env now (refreshParams refreshToken)

/-- A delivered 500 response (transport succeeded, status bad). -/
def resp500 : Response :=
  { status := 500, contentType := "application/json", body := "\x7b\x7d" }

/-- An environment whose transport always delivers the 500 response. -/
def envStatus500 : Env := { urlError := none, send := fun _ => .ok resp500 }

/-- A delivered 200 response with a JSON token. -/
def respOK200 : Response :=
  { status := 200, contentType := "application/json",
    body := "\x7b\"access_token\": \"A\"\x7d" }

/-- An environment whose transport always delivers the good response. -/
def envOK200 : Env := { urlError := none, send := fun _ => .ok respOK200 }

/-- Claim C1 (counterexample): in the `client.go` revision, an
AutoDetect retrieval whose first attempt yields a delivered response
with HTTP status 500 — a failing first attempt in the sense of the
claim — returns that parse error after exactly one attempt: no second
InParams attempt is made, though the claim requires one. -/
theorem claim_C1_counterexample :
    retrieveTokenV1 { Mode := .AutoDetectMode } envStatus500 0 []
      = (.error (.fetchFailed 500 "Internal Server Error" "\x7b\x7d"),
          { Mode := .AutoDetectMode }, [.InHeaderMode])
  ∧ ([Mode.InHeaderMode] ≠ [Mode.InHeaderMode, Mode.InParamsMode]) := by
  exact ⟨by rfl, by decide⟩

/-- Claim C1 as amended: the first AutoDetect attempt uses InHeader with
percent-escaped Basic credentials in every variant.  In the `part_000`
revisions (V2 and V3), where an attempt is build-send-parse, a first
attempt failing for any reason — transport error, non-2xx status or
unparseable body — triggers exactly one second attempt with InParams,
whose error is returned if it also fails.  In the `client.go` revision
(V1) only a failure of the send itself triggers the retry: a delivered
response is parsed and returned, with no second attempt, even when its
status or body makes that parse fail.  With mode InParams or InHeader a
failing attempt is never retried in any variant. -/
theorem claim_C1_amended (cfg : Config) (env : Env) (now : Int) (vals : Values)
    (req req2 : Request) (resp : Response) (e e2 : Err) (t : Token) :
    (newTokenRequest cfg env .InHeaderMode vals = .ok req →
      req.basicAuth = some (queryEscape cfg.ClientID, queryEscape cfg.ClientSecret))
  ∧ (cfg.Mode = .AutoDetectMode →
      (makeRequest cfg env now .InHeaderMode vals = .ok t →
        retrieveTokenV2 cfg env now vals = (.ok t, cfg, [.InHeaderMode])
        ∧ retrieveTokenV3 cfg env now vals
            = (.ok t, { cfg with Mode := .InHeaderMode }, [.InHeaderMode]))
      ∧ (makeRequest cfg env now .InHeaderMode vals = .error e →
          makeRequest cfg env now .InParamsMode vals = .ok t →
          retrieveTokenV2 cfg env now vals
              = (.ok t, { cfg with Mode := .InParamsMode }, [.InHeaderMode, .InParamsMode])
          ∧ retrieveTokenV3 cfg env now vals
              = (.ok t, { cfg with Mode := .InParamsMode }, [.InHeaderMode, .InParamsMode]))
      ∧ (makeRequest cfg env now .InHeaderMode vals = .error e →
          makeRequest cfg env now .InParamsMode vals = .error e2 →
          retrieveTokenV2 cfg env now vals
              = (.error e2, cfg, [.InHeaderMode, .InParamsMode])
          ∧ retrieveTokenV3 cfg env now vals
              = (.error e2, cfg, [.InHeaderMode, .InParamsMode])))
  ∧ (cfg.Mode = .AutoDetectMode →
      newTokenRequest cfg env .InHeaderMode vals = .ok req →
      (env.send req = .ok resp →
        retrieveTokenV1 cfg env now vals = (parseResponse resp now, cfg, [.InHeaderMode]))
      ∧ (env.send req = .error e →
          newTokenRequest cfg env .InParamsMode vals = .ok req2 →
          (env.send req2 = .error e2 →
            retrieveTokenV1 cfg env now vals
              = (.error e2, cfg, [.InHeaderMode, .InParamsMode]))
          ∧ (env.send req2 = .ok resp →
            retrieveTokenV1 cfg env now vals
              = (parseResponse resp now, { cfg with Mode := .InParamsMode },
                  [.InHeaderMode, .InParamsMode]))))
  ∧ (cfg.Mode ≠ .AutoDetectMode →
      (makeRequest cfg env now cfg.Mode vals = .error e →
        retrieveTokenV2 cfg env now vals = (.error e, cfg, [cfg.Mode])
        ∧ retrieveTokenV3 cfg env now vals = (.error e, cfg, [cfg.Mode]))
      ∧ (newTokenRequest cfg env cfg.Mode vals = .ok req →
          env.send req = .error e →
          retrieveTokenV1 cfg env now vals = (.error e, cfg, [cfg.Mode]))) := by
  refine ⟨fun hreq => ?_, fun hauto => ⟨fun h1 => ?_, fun h1 h2 => ?_, fun h1 h2 => ?_⟩,
    fun hauto hreq => ⟨fun hs => ?_, fun hs hreq2 => ⟨fun hs2 => ?_, fun hs2 => ?_⟩⟩,
    fun hfix => ⟨fun h1 => ?_, fun hreq hs => ?_⟩⟩
  · unfold newTokenRequest at hreq
    rcases hu : env.urlError with _ | u <;> rw [hu] at hreq
    · cases hreq; rfl
    · cases hreq
  · exact ⟨by simp [retrieveTokenV2, hauto, h1], by simp [retrieveTokenV3, hauto, h1]⟩
  · exact ⟨by simp [retrieveTokenV2, hauto, h1, h2], by simp [retrieveTokenV3, hauto, h1, h2]⟩
  · exact ⟨by simp [retrieveTokenV2, hauto, h1, h2], by simp [retrieveTokenV3, hauto, h1, h2]⟩
  · simp [retrieveTokenV1, hauto, hreq, hs]
  · simp [retrieveTokenV1, hauto, hreq, hs, hreq2, hs2]
  · simp [retrieveTokenV1, hauto, hreq, hs, hreq2, hs2]
  · exact ⟨by simp [retrieveTokenV2, hfix, h1], by simp [retrieveTokenV3, hfix, h1]⟩
  · simp [retrieveTokenV1, hfix, hreq, hs]

/-- Witness for the amended C1: with the all-500 transport an AutoDetect
retrieval in the V2 revision tries InHeader then InParams and returns
the second error. -/
theorem claim_C1_witness :
    retrieveTokenV2 { Mode := .AutoDetectMode } envStatus500 0 []
      = (.error (.fetchFailed 500 "Internal Server Error" "\x7b\x7d"),
          { Mode := .AutoDetectMode }, [.InHeaderMode, .InParamsMode]) :=
  ((claim_C1_amended { Mode := .AutoDetectMode } envStatus500 0 []
      { mode := .InHeaderMode, url := "", body := [], basicAuth := none }
      { mode := .InHeaderMode, url := "", body := [], basicAuth := none }
      resp500 (.fetchFailed 500 "Internal Server Error" "\x7b\x7d")
      (.fetchFailed 500 "Internal Server Error" "\x7b\x7d") {}).2.1 rfl).2.2
    (by rfl) (by rfl) |>.1

/-- Retrieval V1 rewrites at most the Mode field of the Config. -/
theorem retrieveTokenV1_config_frame (cfg : Config) (env : Env) (now : Int)
    (vals : Values) (r : Except Err Token) (c2 : Config) (tr : List Mode)
    (h : retrieveTokenV1 cfg env now vals = (r, c2, tr)) :
    c2 = { cfg with Mode := c2.Mode } := by
  unfold retrieveTokenV1 at h
  by_cases hm : cfg.Mode = Mode.AutoDetectMode <;>
    simp only [hm, reduceIte, ne_eq, not_true_eq_false, not_false_eq_true,
      if_true, if_false, ite_true, ite_false] at h
  · rcases hr1 : newTokenRequest cfg env Mode.InHeaderMode vals with e0 | req1 <;>
      rw [hr1] at h <;> (try dsimp only [] at h)
    · cases h; rfl
    · rcases hs1 : env.send req1 with e1 | resp1 <;> rw [hs1] at h <;> (try dsimp only [] at h)
      · rcases hr2 : newTokenRequest cfg env Mode.InParamsMode vals with e2 | req2 <;>
          rw [hr2] at h <;> (try dsimp only [] at h)
        · cases h; rfl
        · rcases hs2 : env.send req2 with e3 | resp2 <;> rw [hs2] at h <;> (try dsimp only [] at h) <;>
            (cases h; rfl)
      · cases h; rfl
  · rcases hr1 : newTokenRequest cfg env cfg.Mode vals with e0 | req1 <;>
      rw [hr1] at h <;> (try dsimp only [] at h)
    · cases h; rfl
    · rcases hs1 : env.send req1 with e1 | resp1 <;> rw [hs1] at h <;> (try dsimp only [] at h) <;>
        (cases h; rfl)

/-- Retrieval V2 rewrites at most the Mode field of the Config. -/
theorem retrieveTokenV2_config_frame (cfg : Config) (env : Env) (now : Int)
    (vals : Values) (r : Except Err Token) (c2 : Config) (tr : List Mode)
    (h : retrieveTokenV2 cfg env now vals = (r, c2, tr)) :
    c2 = { cfg with Mode := c2.Mode } := by
  unfold retrieveTokenV2 at h
  by_cases hm : cfg.Mode = Mode.AutoDetectMode <;>
    simp only [hm, reduceIte, ne_eq, not_true_eq_false, not_false_eq_true,
      if_true, if_false, ite_true, ite_false] at h
  · rcases h1 : makeRequest cfg env now Mode.InHeaderMode vals with e1 | t1 <;>
      rw [h1] at h <;> (try dsimp only [] at h)
    · rcases h2 : makeRequest cfg env now Mode.InParamsMode vals with e2 | t2 <;>
        rw [h2] at h <;> (try dsimp only [] at h) <;> (cases h; rfl)
    · cases h; rfl
  · rcases h1 : makeRequest cfg env now cfg.Mode vals with e1 | t1 <;>
      rw [h1] at h <;> (try dsimp only [] at h) <;> (cases h; rfl)

/-- Retrieval V3 rewrites at most the Mode field of the Config. -/
theorem retrieveTokenV3_config_frame (cfg : Config) (env : Env) (now : Int)
    (vals : Values) (r : Except Err Token) (c2 : Config) (tr : List Mode)
    (h : retrieveTokenV3 cfg env now vals = (r, c2, tr)) :
    c2 = { cfg with Mode := c2.Mode } := by
  unfold retrieveTokenV3 at h
  by_cases hm : cfg.Mode = Mode.AutoDetectMode <;>
    simp only [hm, reduceIte, ne_eq, not_true_eq_false, not_false_eq_true,
      if_true, if_false, ite_true, ite_false] at h
  · rcases h1 : makeRequest cfg env now Mode.InHeaderMode vals with e1 | t1 <;>
      rw [h1] at h <;> (try dsimp only [] at h)
    · rcases h2 : makeRequest cfg env now Mode.InParamsMode vals with e2 | t2 <;>
        rw [h2] at h <;> (try dsimp only [] at h) <;> (cases h; rfl)
    · cases h; rfl
  · rcases h1 : makeRequest cfg env now cfg.Mode vals with e1 | t1 <;>
      rw [h1] at h <;> (try dsimp only [] at h) <;> (cases h; rfl)

/-- In a fixed mode, retrieval V1 returns the Config untouched. -/
theorem retrieveTokenV1_config_fixed (cfg : Config) (env : Env) (now : Int)
    (vals : Values) (r : Except Err Token) (c2 : Config) (tr : List Mode)
    (hfix : cfg.Mode ≠ .AutoDetectMode)
    (h : retrieveTokenV1 cfg env now vals = (r, c2, tr)) : c2 = cfg := by
  unfold retrieveTokenV1 at h
  simp only [hfix, reduceIte, ne_eq, not_true_eq_false, not_false_eq_true,
    if_true, if_false, ite_true, ite_false] at h
  rcases hr1 : newTokenRequest cfg env cfg.Mode vals with e0 | req1 <;>
    rw [hr1] at h <;> (try dsimp only [] at h)
  · cases h; rfl
  · rcases hs1 : env.send req1 with e1 | resp1 <;> rw [hs1] at h <;> (try dsimp only [] at h) <;>
      (cases h; rfl)

/-- In a fixed mode, retrieval V2 returns the Config untouched. -/
theorem retrieveTokenV2_config_fixed (cfg : Config) (env : Env) (now : Int)
    (vals : Values) (r : Except Err Token) (c2 : Config) (tr : List Mode)
    (hfix : cfg.Mode ≠ .AutoDetectMode)
    (h : retrieveTokenV2 cfg env now vals = (r, c2, tr)) : c2 = cfg := by
  unfold retrieveTokenV2 at h
  simp only [hfix, reduceIte, ne_eq, not_true_eq_false, not_false_eq_true,
    if_true, if_false, ite_true, ite_false] at h
  rcases h1 : makeRequest cfg env now cfg.Mode vals with e1 | t1 <;>
    rw [h1] at h <;> (try dsimp only [] at h) <;> (cases h; rfl)

/-- In a fixed mode, retrieval V3 returns the Config untouched (the
successful branch rewrites the Mode field with its present value). -/
theorem retrieveTokenV3_config_fixed (cfg : Config) (env : Env) (now : Int)
    (vals : Values) (r : Except Err Token) (c2 : Config) (tr : List Mode)
    (hfix : cfg.Mode ≠ .AutoDetectMode)
    (h : retrieveTokenV3 cfg env now vals = (r, c2, tr)) : c2 = cfg := by
  unfold retrieveTokenV3 at h
  simp only [hfix, reduceIte, ne_eq, not_true_eq_false, not_false_eq_true,
    if_true, if_false, ite_true, ite_false] at h
  rcases h1 : makeRequest cfg env now cfg.Mode vals with e1 | t1 <;>
    rw [h1] at h <;> (try dsimp only [] at h) <;> (cases h; rfl)

/-- Claim C3 (counterexample): in the `part_000` V3 revision, an
AutoDetect retrieval that succeeds on its FIRST attempt also writes the
auth mode, setting it to InHeader — the claim allows a write only after
a successful second attempt. -/
theorem claim_C3_counterexample :
    (retrieveTokenV3 { Mode := .AutoDetectMode } envOK200 0 []).2.1.Mode
      = .InHeaderMode
  ∧ Mode.InHeaderMode ≠ .AutoDetectMode
  ∧ (retrieveTokenV3 { Mode := .AutoDetectMode } envOK200 0 []).1.isOk = true
  ∧ (retrieveTokenV3 { Mode := .AutoDetectMode } envOK200 0 []).2.2
      = [.InHeaderMode] := by
  exact ⟨by rfl, by decide, by rfl, by rfl⟩

/-- Claim C3 as amended: in every variant the auth mode is the only
Config field a retrieval ever writes, and a call with mode InParams or
InHeader leaves the Config unchanged (V3 rewrites the same value).  In
the V2 revision the mode is written exactly when an AutoDetect
retrieval succeeds on the second, InParams attempt, as the claim
states; a fully failed retrieval leaves it unchanged.  In the V3
revision the mode is additionally written when the first AutoDetect
attempt succeeds, becoming InHeader.  In the `client.go` V1 revision
the mode is written as soon as the second send succeeds, even when
parsing that second response afterwards fails. -/
theorem claim_C3_amended (cfg : Config) (env : Env) (now : Int) (vals : Values)
    (req req2 : Request) (resp resp2 : Response) (e e2 : Err) (t : Token)
    (r : Except Err Token) (c2 : Config) (tr : List Mode) :
    (retrieveTokenV1 cfg env now vals = (r, c2, tr) → c2 = { cfg with Mode := c2.Mode })
  ∧ (retrieveTokenV2 cfg env now vals = (r, c2, tr) → c2 = { cfg with Mode := c2.Mode })
  ∧ (retrieveTokenV3 cfg env now vals = (r, c2, tr) → c2 = { cfg with Mode := c2.Mode })
  ∧ (cfg.Mode ≠ .AutoDetectMode →
      (retrieveTokenV1 cfg env now vals = (r, c2, tr) → c2 = cfg)
      ∧ (retrieveTokenV2 cfg env now vals = (r, c2, tr) → c2 = cfg)
      ∧ (retrieveTokenV3 cfg env now vals = (r, c2, tr) → c2 = cfg))
  ∧ (cfg.Mode = .AutoDetectMode →
      (makeRequest cfg env now .InHeaderMode vals = .ok t →
        (retrieveTokenV2 cfg env now vals).2.1 = cfg
        ∧ (retrieveTokenV3 cfg env now vals).2.1 = { cfg with Mode := .InHeaderMode })
      ∧ (makeRequest cfg env now .InHeaderMode vals = .error e →
          makeRequest cfg env now .InParamsMode vals = .ok t →
          (retrieveTokenV2 cfg env now vals).2.1 = { cfg with Mode := .InParamsMode }
          ∧ (retrieveTokenV3 cfg env now vals).2.1 = { cfg with Mode := .InParamsMode })
      ∧ (makeRequest cfg env now .InHeaderMode vals = .error e →
          makeRequest cfg env now .InParamsMode vals = .error e2 →
          (retrieveTokenV2 cfg env now vals).2.1 = cfg
          ∧ (retrieveTokenV3 cfg env now vals).2.1 = cfg))
  ∧ (cfg.Mode = .AutoDetectMode →
      newTokenRequest cfg env .InHeaderMode vals = .ok req →
      (env.send req = .ok resp → (retrieveTokenV1 cfg env now vals).2.1 = cfg)
      ∧ (env.send req = .error e →
          newTokenRequest cfg env .InParamsMode vals = .ok req2 →
          (env.send req2 = .error e2 → (retrieveTokenV1 cfg env now vals).2.1 = cfg)
          ∧ (env.send req2 = .ok resp2 →
              (retrieveTokenV1 cfg env now vals).2.1
                = { cfg with Mode := .InParamsMode }))) := by
  refine ⟨retrieveTokenV1_config_frame cfg env now vals r c2 tr,
    retrieveTokenV2_config_frame cfg env now vals r c2 tr,
    retrieveTokenV3_config_frame cfg env now vals r c2 tr,
    fun hfix => ⟨retrieveTokenV1_config_fixed cfg env now vals r c2 tr hfix,
      retrieveTokenV2_config_fixed cfg env now vals r c2 tr hfix,
      retrieveTokenV3_config_fixed cfg env now vals r c2 tr hfix⟩,
    fun hauto => ⟨fun h1 => ?_, fun h1 h2 => ?_, fun h1 h2 => ?_⟩,
    fun hauto hreq => ⟨fun hs => ?_, fun hs hreq2 => ⟨fun hs2 => ?_, fun hs2 => ?_⟩⟩⟩
  · exact ⟨by simp [retrieveTokenV2, hauto, h1], by simp [retrieveTokenV3, hauto, h1]⟩
  · exact ⟨by simp [retrieveTokenV2, hauto, h1, h2], by simp [retrieveTokenV3, hauto, h1, h2]⟩
  · exact ⟨by simp [retrieveTokenV2, hauto, h1, h2], by simp [retrieveTokenV3, hauto, h1, h2]⟩
  · simp [retrieveTokenV1, hauto, hreq, hs]
  · simp [retrieveTokenV1, hauto, hreq, hs, hreq2, hs2]
  · simp [retrieveTokenV1, hauto, hreq, hs, hreq2, hs2]

/-- Witness for the amended C3: a fixed InParams retrieval leaves the
Config unchanged in all three variants. -/
theorem claim_C3_witness :
    (retrieveTokenV2 { Mode := .InParamsMode } envOK200 0 []).2.1
        = { Mode := .InParamsMode } :=
  ((claim_C3_amended { Mode := .InParamsMode } envOK200 0 []
    { mode := .InHeaderMode, url := "", body := [], basicAuth := none }
    { mode := .InHeaderMode, url := "", body := [], basicAuth := none }
    respOK200 respOK200 .missingAccessToken .missingAccessToken {}
    (retrieveTokenV2 { Mode := .InParamsMode } envOK200 0 []).1
    (retrieveTokenV2 { Mode := .InParamsMode } envOK200 0 []).2.1
    (retrieveTokenV2 { Mode := .InParamsMode } envOK200 0 []).2.2).2.2.2.1
    (by decide)).2.1 rfl

/-- Claim C2 (counterexample): in the `part_000` V2 client revision, a
retrieval whose request carries refresh_token OLD but whose parsed
response has no refresh_token returns a token with EMPTY RefreshToken —
the submitted refresh token is not carried forward by the Client
retrieval path (only `token.go` RetrieveToken does that). -/
theorem claim_C2_counterexample :
    ((retrieveTokenV2 {} envOK200 0 (refreshParams "OLD")).1.toOption.map
        Token.RefreshToken) = some ""
  ∧ (refreshParams "OLD").get "refresh_token" = "OLD"
  ∧ ("" : String) ≠ "OLD" := by
  exact ⟨by rfl, by rfl, by decide⟩

/-- Claim C2 as amended: the defaulting rule holds for the standalone
`RetrieveToken` of `token.go`: when the parsed token has an empty
RefreshToken it is replaced by the refresh_token sent in the request,
and a non-empty parsed RefreshToken is returned unchanged.  The Client
retrieval variants return the parsed token as is: an empty parsed
RefreshToken stays empty even when a refresh_token was sent. -/
theorem claim_C2_amended (style : Mode) (round : Mode → Except Err Token)
    (v vals : Values) (t : Token) (e : Err) (cfg : Config) (env : Env) (now : Int) :
    (round (if style = .AutoDetectMode then .InHeaderMode else style) = .ok t →
      RetrieveTokenGo style round v
        = .ok (if t.RefreshToken = ""
            then { t with RefreshToken := v.get "refresh_token" } else t))
  ∧ (style = .AutoDetectMode → round .InHeaderMode = .error e →
      round .InParamsMode = .ok t →
      RetrieveTokenGo style round v
        = .ok (if t.RefreshToken = ""
            then { t with RefreshToken := v.get "refresh_token" } else t))
  ∧ (round (if style = .AutoDetectMode then .InHeaderMode else style) = .ok t →
      t.RefreshToken ≠ "" → RetrieveTokenGo style round v = .ok t)
  ∧ (cfg.Mode = .AutoDetectMode →
      makeRequest cfg env now .InHeaderMode vals = .ok t →
      (retrieveTokenV2 cfg env now vals).1 = .ok t
      ∧ (retrieveTokenV3 cfg env now vals).1 = .ok t) := by
  refine ⟨fun h => ?_, fun hst h1 h2 => ?_, fun h hne => ?_, fun hm h => ?_⟩
  · simp only [RetrieveTokenGo, h]
    split <;> rfl
  · simp only [RetrieveTokenGo, hst, reduceIte, h1, h2]
    split <;> rfl
  · simp [RetrieveTokenGo, h, hne]
  · exact ⟨by simp [retrieveTokenV2, hm, h], by simp [retrieveTokenV3, hm, h]⟩

/-- Witness for the amended C2: an InParams RetrieveToken whose round
trip yields a token without refresh token carries the submitted
refresh_token forward. -/
theorem claim_C2_witness :
    RetrieveTokenGo .InParamsMode (fun _ => .ok { AccessToken := "A" })
        (refreshParams "OLD")
      = .ok { AccessToken := "A", RefreshToken := "OLD" } :=
  (claim_C2_amended .InParamsMode (fun _ => .ok { AccessToken := "A" })
    (refreshParams "OLD") [] { AccessToken := "A" } .missingAccessToken
    {} envOK200 0).1 rfl

/-- Claim C9: a renewal with an empty refresh token fails before any
request is sent (no modes attempted, client state untouched) in all
three `Client.Token` revisions, and this is the only precondition: with
a non-empty refresh token the call behaves exactly as the underlying
retrieval on the refresh parameters. -/
theorem claim_C9 (c : Client) (cfg : Config) (rt : String) (env : Env) (now : Int) :
    (c.refreshToken = "" →
        clientTokenV1 c env now = (.error .refreshTokenNotSet, c, [])
      ∧ clientTokenV2 c env now = (.error .refreshTokenNotSet, c, []))
  ∧ (rt = "" → clientTokenV3 cfg rt env now = (.error .refreshTokenNotSet, cfg, []))
  ∧ (c.refreshToken ≠ "" →
        (clientTokenV1 c env now).1
            = (retrieveTokenV1 c.config env now (refreshParams c.refreshToken)).1
      ∧ (clientTokenV1 c env now).2.2
            = (retrieveTokenV1 c.config env now (refreshParams c.refreshToken)).2.2
      ∧ (clientTokenV1 c env now).2.1.config
            = (retrieveTokenV1 c.config env now (refreshParams c.refreshToken)).2.1
      ∧ (clientTokenV2 c env now).1
            = (retrieveTokenV2 c.config env now (refreshParams c.refreshToken)).1
      ∧ (clientTokenV2 c env now).2.2
            = (retrieveTokenV2 c.config env now (refreshParams c.refreshToken)).2.2)
  ∧ (rt ≠ "" →
        clientTokenV3 cfg rt env now = retrieveTokenV3 cfg env now (refreshParams rt)) := by
  refine ⟨fun h => ⟨by simp [clientTokenV1, h], by simp [clientTokenV2, h]⟩,
    fun h => by simp [clientTokenV3, h],
    fun h => ?_, fun h => by simp [clientTokenV3, h]⟩
  rcases hr1 : retrieveTokenV1 c.config env now (refreshParams c.refreshToken)
    with ⟨r1, cfg1, tr1⟩
  rcases hr2 : retrieveTokenV2 c.config env now (refreshParams c.refreshToken)
    with ⟨r2, cfg2, tr2⟩
  rcases r1 with e1 | t1 <;> rcases r2 with e2 | t2 <;>
    simp [clientTokenV1, clientTokenV2, h, hr1, hr2]

/-- Witness for C9: the empty-refresh-token precondition at a concrete
client. -/
theorem claim_C9_witness :
    clientTokenV1 { config := {}, refreshToken := "" } envOK200 0
      = (.error .refreshTokenNotSet, { config := {}, refreshToken := "" }, []) :=
  ((claim_C9 { config := {}, refreshToken := "" } {} "x" envOK200 0).1 rfl).1

/-- Claim C10: after a successful renewal the stored refresh token
equals the RefreshToken of the returned token, including the empty
string, in which case the next renewal on the same client fails the
empty-refresh-token precondition; a failed renewal leaves the stored
refresh token unchanged.  Holds for both stored-token revisions. -/
theorem claim_C10 (c c2 : Client) (env env2 : Env) (now now2 : Int) (t : Token)
    (tr : List Mode) (e : Err) :
    (clientTokenV1 c env now = (.ok t, c2, tr) →
        c2.refreshToken = t.RefreshToken
      ∧ (t.RefreshToken = "" →
          clientTokenV1 c2 env2 now2 = (.error .refreshTokenNotSet, c2, [])))
  ∧ (clientTokenV1 c env now = (.error e, c2, tr) → c2.refreshToken = c.refreshToken)
  ∧ (clientTokenV2 c env now = (.ok t, c2, tr) →
        c2.refreshToken = t.RefreshToken
      ∧ (t.RefreshToken = "" →
          clientTokenV2 c2 env2 now2 = (.error .refreshTokenNotSet, c2, [])))
  ∧ (clientTokenV2 c env now = (.error e, c2, tr) → c2.refreshToken = c.refreshToken) := by
  have hstore : ∀ (x y : String), (if x = y then x else y) = y := by
    intro x y; by_cases hxy : x = y <;> simp [hxy]
  refine ⟨fun h => ?_, fun h => ?_, fun h => ?_, fun h => ?_⟩ <;>
    by_cases h0 : c.refreshToken = ""
  · simp [clientTokenV1, h0] at h
  · rcases hr : retrieveTokenV1 c.config env now (refreshParams c.refreshToken)
      with ⟨r, cfgr, trr⟩
    rcases r with er | tk <;> simp [clientTokenV1, h0, hr] at h
    obtain ⟨ht, hc2, -⟩ := h
    subst ht
    have hrt : c2.refreshToken = tk.RefreshToken := by
      rw [← hc2]; exact hstore c.refreshToken tk.RefreshToken
    exact ⟨hrt, fun hempty => by simp [clientTokenV1, hrt, hempty]⟩
  · simp [clientTokenV1, h0] at h
    obtain ⟨-, hc2, -⟩ := h
    subst hc2
    rfl
  · rcases hr : retrieveTokenV1 c.config env now (refreshParams c.refreshToken)
      with ⟨r, cfgr, trr⟩
    rcases r with er | tk <;> simp [clientTokenV1, h0, hr] at h
    obtain ⟨-, hc2, -⟩ := h
    rw [← hc2]
  · simp [clientTokenV2, h0] at h
  · rcases hr : retrieveTokenV2 c.config env now (refreshParams c.refreshToken)
      with ⟨r, cfgr, trr⟩
    rcases r with er | tk <;> simp [clientTokenV2, h0, hr] at h
    obtain ⟨ht, hc2, -⟩ := h
    subst ht
    have hrt : c2.refreshToken = tk.RefreshToken := by
      rw [← hc2]; exact hstore c.refreshToken tk.RefreshToken
    exact ⟨hrt, fun hempty => by simp [clientTokenV2, hrt, hempty]⟩
  · simp [clientTokenV2, h0] at h
    obtain ⟨-, hc2, -⟩ := h
    subst hc2
    rfl
  · rcases hr : retrieveTokenV2 c.config env now (refreshParams c.refreshToken)
      with ⟨r, cfgr, trr⟩
    rcases r with er | tk <;> simp [clientTokenV2, h0, hr] at h
    obtain ⟨-, hc2, -⟩ := h
    rw [← hc2]

/-- Witness for C10: a renewal whose provider response omits the
refresh token clears the stored refresh token. -/
theorem claim_C10_witness :
    ({ config := {}, refreshToken := "" } : Client).refreshToken
      = ({ AccessToken := "A",
           Raw := .jsonMap [("access_token", JSONValue.str "A")] } : Token).RefreshToken :=
  ((claim_C10 { config := {}, refreshToken := "OLD" }
      { config := {}, refreshToken := "" } envOK200 envOK200 0 0
      { AccessToken := "A", Raw := .jsonMap [("access_token", JSONValue.str "A")] }
      [.InHeaderMode] .missingAccessToken).2.2.1 (by rfl)).1
